import Mathlib

/-!
# Donation lifecycle of `altrudos/ch-api` (`donation.go`)

A shallow embedding of the donation lifecycle: creation (`Create`, `Validate`,
`GenerateReferenceCode`, `Insert`), reconciliation against the JustGiving
ledger (`CheckStatus`, `ShouldReject`, `Save`) and the amount parser
(`AmountFromString`).

* Go `error` values are the constructors of `Err`; a `nil` error is `none`.
* `time.Time` is an instant in nanoseconds (`Int`), `time.Duration` a number of
  nanoseconds.
* The database, the clock and the id generator live in `World`; every function
  that touches them takes a `World` and returns the next one. Donations are
  stored as table rows (`row`) and read back through the view (`viewRow`).
* A method with a pointer receiver returns the receiver as it stands when the
  method returns, on the error paths too.
* `float64` values are modelled exactly (`F64`), with IEEE 754
  round-to-nearest-even, and `strconv.ParseFloat` on every string.
-/

namespace Altrudos

/-! ## Errors -/

/-- The two errors a `strconv.NumError` wraps. -/
inductive StrconvErr where
  | ErrSyntax
  | ErrRange
  deriving DecidableEq, Repr

/-- Go error values compared by identity in `donation.go`; `other` is any
error value that is none of the named ones. `NumError` is `*strconv.NumError`,
what `strconv.ParseFloat` fails with. -/
inductive Err where
  | ErrMissingReferenceCode
  | ErrInvalidAmount
  | ErrNegativeAmount
  | ErrNoCurrencyCode
  | ErrNoAmount
  | ErrNoCharity
  | ErrCharityNotFound
  | ErrAlreadyInserted
  | sqlErrNoRows
  | ErrDonationNotFound
  | NumError (Func : String) (Num : String) (Err : StrconvErr)
  | other (msg : String)
  deriving DecidableEq, Repr

deriving instance DecidableEq for Except

/-! ## float64 -/

/-- A float64 value: `finite neg m e` is `(-1)^neg * m * 2^e`. -/
inductive F64 where
  | finite (neg : Bool) (m : Nat) (e : Int)
  | inf (neg : Bool)
  | nan
  deriving DecidableEq, Repr

/-- Quotient `a / b` rounded to the nearest natural number, ties to even. -/
def divRoundHalfEven (a b : Nat) : Nat :=
  let q := a / b
  let r := a % b
  if 2 * r < b then q
  else if b < 2 * r then q + 1
  else if q % 2 = 0 then q else q + 1

/-- The power `2^k` for `k ≥ 0`, and `1` for a negative `k`. -/
def pow2 (k : Int) : Nat := 2 ^ k.toNat

/-- Floor of the binary logarithm of `n` in at most `fuel` halvings. -/
def log2Fuel : Nat → Nat → Nat → Nat
  | 0, _, acc => acc
  | fuel + 1, n, acc => if n < 2 then acc else log2Fuel fuel (n / 2) (acc + 1)

/-- Floor of the binary logarithm of `n` (`0` for `n = 0`). -/
def floorLog2 (n : Nat) : Nat := log2Fuel n n 0

/-- Floor of the binary logarithm of `p / q`, for `p, q > 0`. -/
def floorLog2Ratio (p q : Nat) : Int :=
  let k : Int := (floorLog2 p : Int) - (floorLog2 q : Int)
  if q * pow2 k ≤ p * pow2 (-k) then k else k - 1

/-- The float64 nearest to `(-1)^neg * p / q` (round to nearest, ties to even):
53-bit significand, exponent of the unit in the last place between `-1074`
(subnormals) and `971`; beyond that the result is an infinity. -/
def roundToF64 (neg : Bool) (p q : Nat) : F64 :=
  if p = 0 ∨ q = 0 then F64.finite neg 0 0
  else
    let e : Int := max (floorLog2Ratio p q - 52) (-1074)
    let m := divRoundHalfEven (p * pow2 (-e)) (q * pow2 e)
    if m = 0 then F64.finite neg 0 0
    else
      let m1 := if m = 2 ^ 53 then 2 ^ 52 else m
      let e1 := if m = 2 ^ 53 then e + 1 else e
      if 971 < e1 then F64.inf neg else F64.finite neg m1 e1

/-- Go float64 multiplication `x * y`. -/
def F64.mul : F64 → F64 → F64
  | F64.nan, _ => F64.nan
  | _, F64.nan => F64.nan
  | F64.inf a, F64.inf b => F64.inf (a != b)
  | F64.inf a, F64.finite b m _ => if m = 0 then F64.nan else F64.inf (a != b)
  | F64.finite a m _, F64.inf b => if m = 0 then F64.nan else F64.inf (a != b)
  | F64.finite a m1 e1, F64.finite b m2 e2 =>
      roundToF64 (a != b) (m1 * m2 * pow2 (e1 + e2)) (pow2 (-(e1 + e2)))

/-- Go comparison `f < 0` on float64. -/
def F64.ltZero : F64 → Bool
  | F64.finite neg m _ => neg && m != 0
  | F64.inf neg => neg
  | F64.nan => false

/-- Go conversion `int(f)` on a 64-bit platform: truncation toward zero. For
a value that does not fit an int64 (and for NaN and the infinities) Go leaves
the result to the implementation; the model returns what amd64 does there,
`-2^63`. -/
def F64.toInt : F64 → Int
  | F64.finite neg m e =>
      let a : Nat := m * pow2 e / pow2 (-e)
      let v : Int := if neg then -(a : Int) else (a : Int)
      if -(2 ^ 63 : Int) ≤ v ∧ v < (2 ^ 63 : Int) then v else -(2 ^ 63 : Int)
  | _ => -(2 ^ 63 : Int)

/-- The float64 constant `100`. -/
def F64.hundred : F64 := F64.finite false (100 * 2 ^ 46) (-46)

/-! ## strconv.ParseFloat -/

/-- Go `lower(c)` of `strconv`: the byte `c | 0x20`. -/
def lower (c : Char) : Nat := c.toNat ||| 32

/-- Go `commonPrefixLenIgnoreCase(s, prefix)`, with `prefix` in lower case. -/
def commonPrefixLenIgnoreCase : List Char → List Char → Nat
  | c :: cs, p :: ps => if c.toLower = p then commonPrefixLenIgnoreCase cs ps + 1 else 0
  | _, _ => 0

/-- The `i`, `I` case of `special`, which the sign case falls through to. -/
def specialInf (neg : Bool) (nsign : Nat) (s : List Char) : Option (F64 × Nat) :=
  let n := commonPrefixLenIgnoreCase s "infinity".data
  let n := if 3 < n ∧ n < 8 then 3 else n
  if n = 3 ∨ n = 8 then some (F64.inf neg, nsign + n) else none

/-- Go `special(s)` of `strconv`: the value of a prefix `inf`, `infinity`
(possibly signed) or `nan` of `s`, letter case ignored, and the length of
that prefix. -/
def special : List Char → Option (F64 × Nat)
  | [] => none
  | c :: rest =>
      if c = '+' ∨ c = '-' then specialInf (c == '-') 1 rest
      else if c = 'i' ∨ c = 'I' then specialInf false 0 (c :: rest)
      else if c = 'n' ∨ c = 'N' then
        if commonPrefixLenIgnoreCase (c :: rest) "nan".data = 3 then some (F64.nan, 3) else none
      else none

/-- The mantissa loop of `readFloat`, in base 10 or, with `hex`, 16. The
state is `sawdot`, `sawdigits`, the value `m` of the digits read so far (all
of them; `strconv` rounds the full mantissa correctly) and the number `fl` of
digits read after the dot. Returns `sawdigits`, `m`, `fl` and the unread
rest. -/
def readMantissa (hex : Bool) : List Char → Bool → Bool → Nat → Nat →
    Bool × Nat × Nat × List Char
  | [], _, sawdigits, m, fl => (sawdigits, m, fl, [])
  | c :: cs, sawdot, sawdigits, m, fl =>
      if c = '_' then readMantissa hex cs sawdot sawdigits m fl
      else if c = '.' then
        if sawdot then (sawdigits, m, fl, c :: cs)
        else readMantissa hex cs true sawdigits m fl
      else if c.isDigit then
        readMantissa hex cs sawdot true
          (m * (if hex then 16 else 10) + (c.toNat - 48)) (if sawdot then fl + 1 else fl)
      else if hex ∧ 97 ≤ lower c ∧ lower c ≤ 102 then
        readMantissa hex cs sawdot true (m * 16 + (lower c - 97 + 10))
          (if sawdot then fl + 1 else fl)
      else (sawdigits, m, fl, c :: cs)

/-- The exponent loop of `readFloat`: digits and underscores; the exponent
stops growing once it has reached 10000. -/
def readExponent : List Char → Nat → Nat × List Char
  | [], e => (e, [])
  | c :: cs, e =>
      if c.isDigit then readExponent cs (if e < 10000 then e * 10 + (c.toNat - 48) else e)
      else if c = '_' then readExponent cs e
      else (e, c :: cs)

/-- The optional exponent of `readFloat`, the exponent character (`e`, or `p`
for a hexadecimal mantissa) included: the signed exponent and the unread
rest; `none` where `readFloat` gives up. Without an exponent character the
exponent is 0, and a hexadecimal mantissa must have one. -/
def readExponentPart (hex : Bool) : List Char → Option (Int × List Char)
  | [] => if hex then none else some (0, [])
  | c :: cs =>
      if lower c = (if hex then 112 else 101) then
        match cs with
        | [] => none
        | s :: ds =>
            let body := if s = '+' ∨ s = '-' then ds else s :: ds
            match body with
            | [] => none
            | b :: _ =>
                if b.isDigit then
                  some ((if s = '-' then -((readExponent body 0).1 : Int)
                          else ((readExponent body 0).1 : Int)), (readExponent body 0).2)
                else none
      else if hex then none
      else some (0, c :: cs)

/-- The scan of `underscoreOK` over the number proper; `saw` is the last
character class seen: `0` a digit or base prefix, `_` an underscore, `!`
none of these, `^` the beginning. -/
def underscoreScan (hex : Bool) : List Char → Char → Bool
  | [], saw => saw != '_'
  | c :: cs, saw =>
      if c.isDigit ∨ (hex ∧ 97 ≤ lower c ∧ lower c ≤ 102) then underscoreScan hex cs '0'
      else if c = '_' then
        if saw != '0' then false else underscoreScan hex cs '_'
      else if saw = '_' then false
      else underscoreScan hex cs '!'

/-- Go `underscoreOK(s)` of `strconv`: underscores must appear only between
digits or between a base prefix and a digit. -/
def underscoreOK (s : List Char) : Bool :=
  let s1 := match s with
    | c :: cs => if c = '-' ∨ c = '+' then cs else s
    | [] => s
  match s1 with
  | z :: b :: cs =>
      if z = '0' ∧ (lower b = 98 ∨ lower b = 111 ∨ lower b = 120) then
        underscoreScan (lower b == 120) cs '0'
      else underscoreScan false s1 '^'
  | _ => underscoreScan false s1 '^'

/-- Go `readFloat(s)` of `strconv`: sign, whether the mantissa is
hexadecimal, the mantissa `m` as a natural number and the exponent `x`, so
that the number read is `m * 10^x` (`m * 2^x` for a hexadecimal mantissa),
and the unread rest; `none` where `readFloat` answers not ok. -/
def readFloat (s : List Char) : Option (Bool × Bool × Nat × Int × List Char) :=
  match s with
  | [] => none
  | c :: cs =>
      let neg := c == '-'
      let s1 := if c = '+' ∨ c = '-' then cs else c :: cs
      let hex := match s1 with
        | z :: x :: _ :: _ => z == '0' && lower x == 120
        | _ => false
      let s2 := if hex then s1.drop 2 else s1
      match readMantissa hex s2 false false 0 0 with
      | (sawdigits, m, fl, rest) =>
          if sawdigits = false then none
          else
            match readExponentPart hex rest with
            | none => none
            | some (e, rest1) =>
                let used := s.take (s.length - rest1.length)
                if used.contains '_' ∧ underscoreOK used = false then none
                else some (neg, hex, m, e - (if hex then 4 * (fl : Int) else (fl : Int)), rest1)

/-- Go `strconv.ParseFloat(s, 64)`. A string that is not wholly a special
value or a number is a syntax error; a number is rounded to the nearest
float64 (ties to even), and one that rounds to an infinity is a range
error. -/
def ParseFloat (s : String) : Except Err F64 :=
  match special s.data with
  | some (f, n) =>
      if n = s.data.length then Except.ok f
      else Except.error (Err.NumError "ParseFloat" s StrconvErr.ErrSyntax)
  | none =>
      match readFloat s.data with
      | none => Except.error (Err.NumError "ParseFloat" s StrconvErr.ErrSyntax)
      | some (neg, hex, m, x, rest) =>
          if rest ≠ [] then Except.error (Err.NumError "ParseFloat" s StrconvErr.ErrSyntax)
          else
            match roundToF64 neg (m * (if hex then 2 else 10) ^ x.toNat)
                ((if hex then 2 else 10) ^ (-x).toNat) with
            | F64.finite n mm e => Except.ok (F64.finite n mm e)
            | _ => Except.error (Err.NumError "ParseFloat" s StrconvErr.ErrRange)

/-- Source: `AmountFromString`. Takes an amount that is a string from the
frontend and returns it in cents. -/
def AmountFromString (amount : String) : Except Err Int :=
  match ParseFloat amount with
  | Except.error _ => Except.error Err.ErrInvalidAmount
  | Except.ok f =>
      if f.ltZero then Except.error Err.ErrNegativeAmount
      else Except.ok (f.mul F64.hundred).toInt

/-! ## Data model -/

/-- Type `pgnull.NullString`. -/
structure NullString where
  String : String
  Valid : Bool
  deriving DecidableEq, Repr

/-- Type `pgnull.NullTime`. -/
structure NullTime where
  Time : Int
  Valid : Bool
  deriving DecidableEq, Repr

/-- Type `DonationStatus` (`type DonationStatus string`). -/
abbrev DonationStatus := String

def DonationAccepted : DonationStatus := "Accepted"
def DonationPending : DonationStatus := "Pending"
def DonationRejected : DonationStatus := "Rejected"

/-- If a pending donation is not found after this amount of time, reject it:
`time.Hour * 24`, in nanoseconds. -/
def DonationCheckExpiration : Int := 3600 * 1000000000 * 24

/-- The fields of `Charity` that `donation.go` reads. -/
structure Charity where
  Id : String
  JustGivingCharityId : Int
  deriving DecidableEq, Repr

/-- Type `Donation`; the `Drive` pointer, which none of the modelled functions
touches, is left out. -/
structure Donation where
  Charity : Option Charity
  CharityId : String
  CreatedAt : Int
  DonorAmount : Int
  DonorCurrency : String
  DonorName : NullString
  DriveId : String
  FinalAmount : Int
  FinalCurrency : NullString
  Id : String
  LastChecked : NullTime
  Message : NullString
  Status : DonationStatus
  ReferenceCode : String
  USDAmount : Int
  CharityName : NullString
  CharityDescription : NullString
  CharityWebsiteUrl : NullString
  deriving DecidableEq, Repr

/-- The fields of `justgiving.Donation` that `CheckStatus` reads. -/
structure JGDonation where
  Amount : String
  CurrencyCode : String
  Status : String
  deriving DecidableEq, Repr

/-- The JustGiving client, as far as `donation.go` uses it: the outcome of
`jg.GetDonationByReference(code)`. -/
abbrev JustGiving := String → Except Err JGDonation

/-- The two helpers of the package that `donation.go` calls and that are not
part of the source at hand, taken as parameters. -/
structure Env where
  ParseCurrency : String → Except Err String
  ExchangeToUSD : Int → String → Except Err Int

/-! ## The world: database, clock, id generator -/

/-- The three columns that the donations view joins to a donation from its
charity. -/
structure CharityColumns where
  Name : NullString
  Description : NullString
  WebsiteUrl : NullString
  deriving DecidableEq, Repr

/-- State outside the donation. `donations` are the rows of the donations
table, `charities` the rows of the charities table, and `joined id` the
columns that the donations view shows for the charity `id` (the view is not
part of the source at hand). `now k` is what the `k`-th call of `time.Now()`
returns and `ticks` counts the calls made. `fault k`, when present, makes the
`k`-th database access fail with that message (a connection or driver error);
`ops` counts the accesses. `nextId` is the id the database gives to the next
inserted row. -/
structure World where
  donations : List Donation
  charities : List Charity
  joined : String → CharityColumns
  now : Nat → Int
  ticks : Nat
  fault : Nat → Option String
  ops : Nat
  nextId : Nat

/-- Call of `time.Now()`. -/
def timeNow (w : World) : Int × World :=
  (w.now w.ticks, { w with ticks := w.ticks + 1 })

/-- One database access: the injected failure, if any, and the world after. -/
def dbAccess (w : World) : Option Err × World :=
  ((w.fault w.ops).map Err.other, { w with ops := w.ops + 1 })

/-- Modelled from the spec: `GetCharityById` is not in the source at hand. The
persistence adapter's `FindCharity(id) -> Charity|NotFound`; absence is
`sql.ErrNoRows`, which is what `Create` tests its error against. -/
def GetCharityById (w : World) (id : String) : Except Err Charity × World :=
  match dbAccess w with
  | (some e, w1) => (Except.error e, w1)
  | (none, w1) =>
      match w1.charities.find? (fun c => c.Id == id) with
      | none => (Except.error Err.sqlErrNoRows, w1)
      | some c => (Except.ok c, w1)

/-- A value handed to or held by the database. -/
inductive SqlValue where
  | text (s : String)
  | integer (n : Int)
  | timestamp (t : Int)
  | null
  deriving DecidableEq, Repr

/-- The database value of a `pgnull.NullString`. -/
def NullString.value (s : NullString) : SqlValue :=
  if s.Valid then SqlValue.text s.String else SqlValue.null

/-- The database value of a `pgnull.NullTime`. -/
def NullTime.value (t : NullTime) : SqlValue :=
  if t.Valid then SqlValue.timestamp t.Time else SqlValue.null

/-- A stored row as the view shows it through the columns of
`DonationColumns`, scanned into a fresh `Donation`: the charity columns come
from the join; `usd_amount` is not among the selected columns, so `USDAmount`
keeps its zero value; the `Charity` pointer is nil. -/
def viewRow (w : World) (r : Donation) : Donation :=
  { r with
    Charity := none
    USDAmount := 0
    CharityName := (w.joined r.CharityId).Name
    CharityDescription := (w.joined r.CharityId).Description
    CharityWebsiteUrl := (w.joined r.CharityId).WebsiteUrl }

/-- Source: `DonationColumns`, the field names and the columns they are read
from. -/
def DonationColumns : List (String × String) :=
  [("Id", "id"),
   ("CharityId", "charity_id"),
   ("CreatedAt", "created_at"),
   ("DonorAmount", "donor_amount"),
   ("DonorCurrentyCode", "donor_currency"),
   ("DonorName", "donor_name"),
   ("DriveId", "drive_id"),
   ("FinalAmount", "final_amount"),
   ("FinalCurrency", "final_currency"),
   ("LastChecked", "last_checked"),
   ("Message", "message"),
   ("ReferenceCode", "reference_code"),
   ("Status", "status"),
   ("CharityDescription", "charity_description"),
   ("CharityName", "charity_name"),
   ("CharityWebsiteUrl", "charity_website_url")]

/-- The value of a view row in a column of `DonationColumns`; `none` for a
column name that `DonationColumns` does not list. -/
def columnValue (field : String) (d : Donation) : Option SqlValue :=
  if field = "id" then some (SqlValue.text d.Id)
  else if field = "charity_id" then some (SqlValue.text d.CharityId)
  else if field = "created_at" then some (SqlValue.timestamp d.CreatedAt)
  else if field = "donor_amount" then some (SqlValue.integer d.DonorAmount)
  else if field = "donor_currency" then some (SqlValue.text d.DonorCurrency)
  else if field = "donor_name" then some d.DonorName.value
  else if field = "drive_id" then some (SqlValue.text d.DriveId)
  else if field = "final_amount" then some (SqlValue.integer d.FinalAmount)
  else if field = "final_currency" then some d.FinalCurrency.value
  else if field = "last_checked" then some d.LastChecked.value
  else if field = "message" then some d.Message.value
  else if field = "reference_code" then some (SqlValue.text d.ReferenceCode)
  else if field = "status" then some (SqlValue.text d.Status)
  else if field = "charity_description" then some d.CharityDescription.value
  else if field = "charity_name" then some d.CharityName.value
  else if field = "charity_website_url" then some d.CharityWebsiteUrl.value
  else none

/-- The condition `field = ?` of the lookup, on a view row: the column holds
the value, which is not null (a comparison with null selects no row; so does
one with a value of another type than the column's). -/
def fieldIs (field : String) (val : SqlValue) (d : Donation) : Bool :=
  val != SqlValue.null && columnValue field d == some val

/-- Source: `GetDonationByField`. `sqlx.Get` yields the first matching row of
the view, or `sql.ErrNoRows`. The source names no column of the view but
those of `DonationColumns`; a lookup by another column name is taken to fail
in the database. -/
def GetDonationByField (w : World) (field : String) (val : SqlValue) :
    Except Err Donation × World :=
  match dbAccess w with
  | (some e, w1) => (Except.error e, w1)
  | (none, w1) =>
      if DonationColumns.all (fun c => c.2 != field) then
        (Except.error (Err.other "pq: column does not exist"), w1)
      else
        match (w1.donations.map (viewRow w1)).find? (fieldIs field val) with
        | none => (Except.error Err.sqlErrNoRows, w1)
        | some d =>
            if d.CharityId = "" then (Except.error (Err.other "charity has a blank ID"), w1)
            else
              match GetCharityById w1 d.CharityId with
              | (Except.error e, w2) => (Except.error e, w2)
              | (Except.ok charity, w2) => (Except.ok { d with Charity := some charity }, w2)

/-- Source: `GetDonationById`. -/
def GetDonationById (w : World) (id : String) : Except Err Donation × World :=
  GetDonationByField w "id" (SqlValue.text id)

/-- Source: `GetDonationByReferenceCode`. -/
def GetDonationByReferenceCode (w : World) (code : String) : Except Err Donation × World :=
  GetDonationByField w "reference_code" (SqlValue.text code)

/-- Type `DonationOperators`, with the `BaseOperator` fields that
`GetDonationsToCheck` sets. -/
structure DonationOperators where
  Limit : Int
  SortField : String
  Statuses : List DonationStatus

/-- Source: `QueryDonations`, on the rows the query selects. -/
def QueryDonations (w : World) (rows : List Donation) : Except Err (List Donation) × World :=
  match dbAccess w with
  | (some e, w1) => (Except.error e, w1)
  | (none, w1) => (Except.ok rows, w1)

/-- Source: `GetDonations`. The query selects the columns of `DonationColumns`
from the view and filters on `ops.Statuses` when there are any, and on
nothing else. -/
def GetDonations (w : World) (ops : DonationOperators) : Except Err (List Donation) × World :=
  if ops.Statuses.length > 0 then
    QueryDonations w
      ((w.donations.map (viewRow w)).filter (fun d => ops.Statuses.contains d.Status))
  else QueryDonations w (w.donations.map (viewRow w))

/-- Source: `GetDonationsToCheck`. -/
def GetDonationsToCheck (w : World) (limit : Int) : Except Err (List Donation) × World :=
  GetDonations w { Limit := limit, SortField := "next_check", Statuses := [DonationPending] }

/-! ## Creation -/

/-- Result of a method on `*Donation` that returns an `error`: the error
(`none` for `nil`), the donation as the method leaves it, and the world. -/
abbrev Outcome := Option Err × Donation × World

/-- The loop of `GenerateReferenceCode`, run for at most `fuel` iterations;
`hit` is the local variable `exists`. The candidate is
`fmt.Sprintf("ch-%d", time.Now().UnixNano())` (the UUID drawn just before is
overwritten). `none`: the loop is still running after `fuel` iterations. -/
def GenerateReferenceCodeLoop : Nat → Bool → Donation → World → Option Outcome
  | 0, hit, d, w =>
      if d.ReferenceCode = "" ∨ hit = true then none else some (none, d, w)
  | fuel + 1, hit, d, w =>
      if d.ReferenceCode = "" ∨ hit = true then
        let d1 := { d with ReferenceCode := "ch-" ++ toString (timeNow w).1 }
        match GetDonationByReferenceCode (timeNow w).2 d1.ReferenceCode with
        | (Except.error err, w2) =>
            if err = Err.sqlErrNoRows then some (none, d1, w2) else some (some err, d1, w2)
        | (Except.ok _, w2) => GenerateReferenceCodeLoop fuel true d1 w2
      else some (none, d, w)

/-- Source: `Donation.GenerateReferenceCode`. -/
def GenerateReferenceCode (fuel : Nat) (d : Donation) (w : World) : Option Outcome :=
  GenerateReferenceCodeLoop fuel false d w

/-- Source: `Donation.Validate`. -/
def Validate (env : Env) (d : Donation) : Option Err × Donation :=
  match env.ParseCurrency d.DonorCurrency with
  | Except.error err => (some err, d)
  | Except.ok currency =>
      let d1 := { d with DonorCurrency := currency }
      if d1.DonorAmount < 0 then (some Err.ErrNegativeAmount, d1) else (none, d1)

/-- The row a donation is stored as: the `Charity` pointer and the three
charity fields, which come from the view join, are not columns of the table. -/
def row (d : Donation) : Donation :=
  { d with
    Charity := none
    CharityName := { String := "", Valid := false }
    CharityDescription := { String := "", Valid := false }
    CharityWebsiteUrl := { String := "", Valid := false } }

/-- Source: `Donation.Insert`. Raw insert into db; the generated id is scanned
into `d.Id`. -/
def Insert (d : Donation) (w : World) : Outcome :=
  match dbAccess w with
  | (some e, w1) => (some e, d, w1)
  | (none, w1) =>
      let d1 := { d with Id := toString w1.nextId }
      (none, d1, { w1 with donations := w1.donations ++ [row d1], nextId := w1.nextId + 1 })

/-- Source: `Donation.Save`. Update of the rows whose id is `d.Id`. -/
def Save (d : Donation) (w : World) : Option Err × World :=
  match dbAccess w with
  | (some e, w1) => (some e, w1)
  | (none, w1) =>
      (none, { w1 with donations := w1.donations.map (fun r => if r.Id = d.Id then row d else r) })

/-- Source: `Donation.Create`. Create does magic before insert into db. -/
def Create (fuel : Nat) (env : Env) (d : Donation) (w : World) : Option Outcome :=
  if d.CharityId = "" then some (some Err.ErrNoCharity, d, w)
  else
    match GetCharityById w d.CharityId with
    | (Except.error err, w1) =>
        if err = Err.sqlErrNoRows then some (some Err.ErrCharityNotFound, d, w1)
        else some (some err, d, w1)
    | (Except.ok charity, w1) =>
        let d1 := { d with Charity := some charity }
        if d1.ReferenceCode ≠ "" then some (some Err.ErrAlreadyInserted, d1, w1)
        else
          match Validate env d1 with
          | (some err, d2) => some (some err, d2, w1)
          | (none, d2) =>
              match GenerateReferenceCode fuel d2 w1 with
              | none => none
              | some (some err, d3, w2) => some (some err, d3, w2)
              | some (none, d3, w2) =>
                  let d4 := if d3.Status = "" then { d3 with Status := DonationPending } else d3
                  let d5 := { d4 with CreatedAt := (timeNow w2).1 }
                  some (Insert d5 (timeNow w2).2)

/-! ## Reconciliation -/

/-- Source: `Donation.ShouldReject`. -/
def ShouldReject (d : Donation) (w : World) : Bool × World :=
  if d.Status ≠ DonationPending then (false, w)
  else (decide (d.CreatedAt < (timeNow w).1 + DonationCheckExpiration * -1), (timeNow w).2)

/-- Source: `Donation.GetJustGivingDonation`. -/
def GetJustGivingDonation (d : Donation) (jg : JustGiving) : Except Err JGDonation :=
  jg d.ReferenceCode

/-- The last four lines of `CheckStatus`: stamp `LastChecked`, set the status,
save, return the error of the save. -/
def stampAndSave (d : Donation) (status : DonationStatus) (w : World) : Outcome :=
  let d1 := { d with LastChecked := { Time := (timeNow w).1, Valid := true } }
  let d2 := { d1 with Status := status }
  ((Save d2 (timeNow w).2).1, d2, (Save d2 (timeNow w).2).2)

/-- Source: `Donation.CheckStatus`. -/
def CheckStatus (env : Env) (jg : JustGiving) (d : Donation) (w : World) : Outcome :=
  match GetJustGivingDonation d jg with
  | Except.error err =>
      if err = Err.ErrDonationNotFound then
        -- This checks the date
        if (ShouldReject d w).1 then stampAndSave d DonationRejected (ShouldReject d w).2
        else stampAndSave d DonationPending (ShouldReject d w).2
      else (some err, d, w)
  | Except.ok jgDonation =>
      match ParseFloat jgDonation.Amount with
      | Except.error err => (some err, d, w)
      | Except.ok amount =>
          let d1 := { d with FinalAmount := (amount.mul F64.hundred).toInt }
          let d2 := { d1 with FinalCurrency := { String := jgDonation.CurrencyCode, Valid := true } }
          let d3 :=
            match env.ExchangeToUSD d2.FinalAmount d2.FinalCurrency.String with
            | Except.ok usd => { d2 with USDAmount := usd }
            | Except.error _ => d2
          stampAndSave d3 jgDonation.Status w

/-! ## Concrete inputs -/

/-- An environment: two supported currencies, conversion at par. -/
def sampleEnv : Env where
  ParseCurrency := fun s =>
    if s = "USD" ∨ s = "usd" then Except.ok "USD"
    else if s = "GBP" ∨ s = "gbp" then Except.ok "GBP"
    else Except.error (Err.other "unsupported currency")
  ExchangeToUSD := fun a c =>
    if c = "USD" then Except.ok a else Except.error (Err.other "no rate")

/-- A donation of 5.00 USD to charity `c1`, not yet created. -/
def sampleDonation : Donation where
  Charity := none
  CharityId := "c1"
  CreatedAt := 0
  DonorAmount := 500
  DonorCurrency := "USD"
  DonorName := { String := "", Valid := false }
  DriveId := "drive1"
  FinalAmount := 0
  FinalCurrency := { String := "", Valid := false }
  Id := ""
  LastChecked := { Time := 0, Valid := false }
  Message := { String := "", Valid := false }
  Status := ""
  ReferenceCode := ""
  USDAmount := 0
  CharityName := { String := "", Valid := false }
  CharityDescription := { String := "", Valid := false }
  CharityWebsiteUrl := { String := "", Valid := false }

/-- One hour, in nanoseconds. -/
def hour : Int := 3600 * 1000000000

/-- A world with charity `c1`, no donation, a clock that reads 100 hours and
advances by a nanosecond per reading, and no database failure. -/
def sampleWorld : World where
  donations := []
  charities := [{ Id := "c1", JustGivingCharityId := 2096 }]
  joined := fun _ =>
    { Name := { String := "Charity One", Valid := true }
      Description := { String := "", Valid := false }
      WebsiteUrl := { String := "", Valid := false } }
  now := fun k => 100 * hour + k
  ticks := 0
  fault := fun _ => none
  ops := 0
  nextId := 1

/-- A stored pending donation, with id `7` and the given creation time. -/
def storedDonation (createdAt : Int) : Donation :=
  { sampleDonation with
    Id := "7", Status := DonationPending, ReferenceCode := "ch-1", CreatedAt := createdAt }

/-- A ledger that knows no donation. -/
def ledgerNotFound : JustGiving := fun _ => Except.error Err.ErrDonationNotFound

/-- A ledger whose query times out. -/
def ledgerDown : JustGiving := fun _ => Except.error (Err.other "timeout")

/-- A ledger that reports every donation with the given status and amount, in GBP. -/
def ledgerFound (status amount : String) : JustGiving :=
  fun _ => Except.ok { Amount := amount, CurrencyCode := "GBP", Status := status }

/-- A stored donation already accepted. -/
def acceptedDonation : Donation :=
  { storedDonation 0 with Status := DonationAccepted }

/-- A new donation that its caller hands to `Create` with status Accepted. -/
def newAcceptedDonation : Donation :=
  { sampleDonation with Status := DonationAccepted }

/-- A new donation with a negative amount. -/
def negativeDonation : Donation :=
  { sampleDonation with DonorAmount := -5 }

/-- Referential integrity of the store: every stored donation that has a
charity id names a stored charity. -/
def World.consistent (w : World) : Bool :=
  w.donations.all (fun r => r.CharityId == "" || w.charities.any (fun c => c.Id == r.CharityId))

/-- A world whose clock reads 5 nanoseconds and whose one stored donation,
with reference code `ch-5`, names a charity that is not stored. -/
def orphanWorld : World :=
  { sampleWorld with
    donations := [{ storedDonation 0 with ReferenceCode := "ch-5", CharityId := "gone" }]
    now := fun k => 5 + k }

/-- A world whose clock reads 5 nanoseconds, then 6, and whose store holds two
donations of charity `c1`, with reference codes `ch-5` and `ch-1`. -/
def busyWorld : World :=
  { sampleWorld with
    donations := [{ storedDonation 0 with ReferenceCode := "ch-5", Id := "8" }, storedDonation 0]
    now := fun k => 5 + k }

/-- The accepted donation number 9, as stored. -/
def terminalDonation : Donation :=
  { acceptedDonation with Id := "9", ReferenceCode := "ch-2" }

/-- The stored row of the pending donation number 7, created at the 75th
hour, with 5.00 in its `usd_amount` column. -/
def storedRow7 : Donation :=
  { row (storedDonation (75 * hour)) with USDAmount := 500 }

/-- A world that stores two donations: number 7, pending, and number 9,
accepted. -/
def storedWorld : World :=
  { sampleWorld with donations := [storedRow7, row terminalDonation] }

/-- Donation number 7 as `GetDonationById` loads it from `storedWorld`. -/
def loadedDonation : Donation :=
  { viewRow storedWorld storedRow7 with
    Charity := some { Id := "c1", JustGivingCharityId := 2096 } }

/-! ## Reconciliation: theorems -/

/-- A save whose database access goes through returns nil and replaces every
stored row that has the donation's id by the row of the donation. -/
theorem Save_ok (d : Donation) (w : World) (h : w.fault w.ops = none) :
    Save d w = (none, { w with
      ops := w.ops + 1
      donations := w.donations.map (fun r => if r.Id = d.Id then row d else r) }) := by
  unfold Save dbAccess
  simp [h]

/-- A save whose database access fails returns that failure and leaves the
stored rows as they were. -/
theorem Save_fault (d : Donation) (w : World) (m : String) (h : w.fault w.ops = some m) :
    Save d w = (some (Err.other m), { w with ops := w.ops + 1 }) := by
  unfold Save dbAccess
  simp [h]

/-- On a found ledger response whose amount parses, `CheckStatus` leaves the
reported status, the stamp, the truncated amount and the reported currency in
the donation. -/
theorem CheckStatus_found (env : Env) (jg : JustGiving) (d : Donation) (w : World)
    (jgd : JGDonation) (f : F64) (hq : GetJustGivingDonation d jg = Except.ok jgd)
    (hpf : ParseFloat jgd.Amount = Except.ok f) :
    (CheckStatus env jg d w).2.1.Status = jgd.Status
      ∧ (CheckStatus env jg d w).2.1.LastChecked = { Time := w.now w.ticks, Valid := true }
      ∧ (CheckStatus env jg d w).2.1.FinalAmount = (f.mul F64.hundred).toInt
      ∧ (CheckStatus env jg d w).2.1.FinalCurrency
          = { String := jgd.CurrencyCode, Valid := true } := by
  unfold CheckStatus
  rw [hq]
  simp only [hpf]
  cases hx : env.ExchangeToUSD (f.mul F64.hundred).toInt jgd.CurrencyCode <;>
    simp [stampAndSave, timeNow]

/-- On a found ledger response whose amount does not parse, `CheckStatus`
returns the parse error and touches nothing. -/
theorem CheckStatus_found_unparsed (env : Env) (jg : JustGiving) (d : Donation) (w : World)
    (jgd : JGDonation) (e : Err) (hq : GetJustGivingDonation d jg = Except.ok jgd)
    (hpf : ParseFloat jgd.Amount = Except.error e) :
    CheckStatus env jg d w = (some e, d, w) := by
  unfold CheckStatus
  rw [hq]
  simp only [hpf]

/-- The sweep selects Pending donations only, each the view row of a stored
donation. -/
theorem GetDonationsToCheck_pending (w : World) (limit : Int) (rows : List Donation)
    (h : (GetDonationsToCheck w limit).1 = Except.ok rows) :
    ∀ r ∈ rows, r.Status = DonationPending ∧ ∃ s ∈ w.donations, r = viewRow w s := by
  unfold GetDonationsToCheck GetDonations QueryDonations dbAccess at h
  cases hf : w.fault w.ops with
  | some m => simp [hf] at h
  | none =>
      simp [hf] at h
      subst h
      intro r hr
      simp at hr
      obtain ⟨⟨s, hs, hrs⟩, hst⟩ := hr
      exact ⟨hst, s, hs, hrs.symm⟩

/-- The not-found branch of `CheckStatus` on a Pending donation: two clock
readings, then the save of the stamped donation. -/
theorem CheckStatus_not_found_eq (env : Env) (jg : JustGiving) (d : Donation) (w : World)
    (hp : d.Status = DonationPending)
    (hq : GetJustGivingDonation d jg = Except.error Err.ErrDonationNotFound) :
    CheckStatus env jg d w
      = ((Save
            { d with
              LastChecked := { Time := w.now (w.ticks + 1), Valid := true }
              Status := if d.CreatedAt < w.now w.ticks - DonationCheckExpiration
                then DonationRejected else DonationPending }
            { w with ticks := w.ticks + 2 }).1,
          { d with
            LastChecked := { Time := w.now (w.ticks + 1), Valid := true }
            Status := if d.CreatedAt < w.now w.ticks - DonationCheckExpiration
              then DonationRejected else DonationPending },
          (Save
            { d with
              LastChecked := { Time := w.now (w.ticks + 1), Valid := true }
              Status := if d.CreatedAt < w.now w.ticks - DonationCheckExpiration
                then DonationRejected else DonationPending }
            { w with ticks := w.ticks + 2 }).2) := by
  have hS : ShouldReject d w
      = (decide (d.CreatedAt < w.now w.ticks - DonationCheckExpiration),
          { w with ticks := w.ticks + 1 }) := by
    unfold ShouldReject timeNow
    simp [hp, sub_eq_add_neg]
  unfold CheckStatus
  rw [hq, hS]
  by_cases hlt : d.CreatedAt < w.now w.ticks - DonationCheckExpiration <;>
    simp [hlt, stampAndSave, timeNow]

/-- C1: when the ledger query fails with an error other than
`justgiving.ErrDonationNotFound`, `CheckStatus` returns exactly that error,
the donation is the one it was given (Status, LastChecked, FinalAmount,
FinalCurrency, USDAmount and every other field unchanged) and the world is
untouched: no database access, hence no Save, and no clock reading. -/
theorem CheckStatus_ledger_error (env : Env) (jg : JustGiving) (d : Donation) (w : World)
    (e : Err) (hq : GetJustGivingDonation d jg = Except.error e)
    (hne : e ≠ Err.ErrDonationNotFound) :
    CheckStatus env jg d w = (some e, d, w) := by
  unfold CheckStatus
  rw [hq]
  simp [hne]

/-- Witness of C1: a ledger that times out on a stored pending donation. -/
theorem CheckStatus_ledger_error_witness :
    CheckStatus sampleEnv ledgerDown (storedDonation (75 * hour)) storedWorld
      = (some (Err.other "timeout"), storedDonation (75 * hour), storedWorld) :=
  CheckStatus_ledger_error sampleEnv ledgerDown (storedDonation (75 * hour)) storedWorld
    (Err.other "timeout") rfl (by decide)

/-- C8: `ShouldReject` is true if and only if the status is Pending and
`CreatedAt` is strictly before the clock reading minus
`DonationCheckExpiration`, which is 24 hours; at exactly the 24-hour boundary
it is false, for whatever status; it writes nothing: it returns only the
boolean, and the stored donations are as before. -/
theorem ShouldReject_iff (d : Donation) (w : World) :
    ((ShouldReject d w).1 = true ↔
        d.Status = DonationPending ∧ d.CreatedAt < w.now w.ticks - DonationCheckExpiration)
    ∧ (ShouldReject { d with CreatedAt := w.now w.ticks - DonationCheckExpiration } w).1 = false
    ∧ DonationCheckExpiration = 24 * hour
    ∧ (ShouldReject d w).2.donations = w.donations := by
  refine ⟨?_, ?_, by decide, ?_⟩
  · unfold ShouldReject timeNow
    by_cases h : d.Status = DonationPending
    · simp [h, sub_eq_add_neg]
    · simp [h]
  · unfold ShouldReject timeNow
    by_cases h : d.Status = DonationPending
    · simp [h, sub_eq_add_neg]
    · simp [h]
  · unfold ShouldReject timeNow
    by_cases h : d.Status = DonationPending
    · simp [h]
    · simp [h]

/-- C2: for a Pending donation and a ledger that reports not found, with `now`
the clock reading taken by `ShouldReject` and `stamp` the next reading:
Status becomes Rejected when `CreatedAt < now - DonationCheckExpiration` and
stays Pending otherwise, LastChecked becomes `stamp` (valid), FinalAmount,
FinalCurrency and USDAmount are unchanged, the donation is saved and the
result of the save is returned. With `CreatedAt = now - 25h` the status is
Rejected, with `CreatedAt = now - 1h` it is Pending. The save is the one
database access of the call: when it goes through, nil is returned and every
stored row with the donation's id is now the row of the donation as it
stands, the other rows being as they were; when it fails, its error is
returned and the stored rows are as they were. -/
theorem CheckStatus_not_found (env : Env) (jg : JustGiving) (d : Donation) (w : World)
    (hp : d.Status = DonationPending)
    (hq : GetJustGivingDonation d jg = Except.error Err.ErrDonationNotFound) :
    ∃ d' : Donation,
      CheckStatus env jg d w
          = ((Save d' { w with ticks := w.ticks + 2 }).1, d',
              (Save d' { w with ticks := w.ticks + 2 }).2)
      ∧ d'.Status = (if d.CreatedAt < w.now w.ticks - DonationCheckExpiration
                      then DonationRejected else DonationPending)
      ∧ d'.LastChecked = { Time := w.now (w.ticks + 1), Valid := true }
      ∧ d'.FinalAmount = d.FinalAmount
      ∧ d'.FinalCurrency = d.FinalCurrency
      ∧ d'.USDAmount = d.USDAmount
      ∧ d'.Id = d.Id
      ∧ (d.CreatedAt = w.now w.ticks - 25 * hour → d'.Status = DonationRejected)
      ∧ (d.CreatedAt = w.now w.ticks - 1 * hour → d'.Status = DonationPending)
      ∧ (w.fault w.ops = none →
          CheckStatus env jg d w = (none, d', { w with
            ticks := w.ticks + 2
            ops := w.ops + 1
            donations := w.donations.map (fun r => if r.Id = d.Id then row d' else r) })
          ∧ (row d').Status = d'.Status ∧ (row d').LastChecked = d'.LastChecked)
      ∧ (∀ m, w.fault w.ops = some m →
          CheckStatus env jg d w
            = (some (Err.other m), d', { w with ticks := w.ticks + 2, ops := w.ops + 1 })) := by
  have hexp : DonationCheckExpiration = 24 * hour := by decide
  have hh : (0 : Int) < hour := by decide
  have hC := CheckStatus_not_found_eq env jg d w hp hq
  refine ⟨_, hC, rfl, rfl, rfl, rfl, rfl, rfl, ?_, ?_, ?_, ?_⟩
  · intro h25
    have hlt : d.CreatedAt < w.now w.ticks - DonationCheckExpiration := by
      rw [h25, hexp]
      linarith
    simp [hlt]
  · intro h1
    have hlt : ¬ d.CreatedAt < w.now w.ticks - DonationCheckExpiration := by
      rw [h1, hexp]
      intro h
      linarith
    simp [hlt]
  · intro hf
    refine ⟨?_, rfl, rfl⟩
    rw [hC, Save_ok _ { w with ticks := w.ticks + 2 } hf]
  · intro m hf
    rw [hC, Save_fault _ { w with ticks := w.ticks + 2 } m hf]

set_option maxRecDepth 10000 in
/-- Witness of C2: the stored pending donation number 7, created 25 hours
before the check, loaded by `GetDonationById` (charity columns from the view,
`USDAmount` zero) and unknown to the ledger. It comes back Rejected with nil;
in the store row 7 is now the row of the returned donation, Rejected and
stamped, without the charity pointer and the charity columns, while row 9 is
as it was. -/
theorem CheckStatus_not_found_witness :
    (GetDonationById storedWorld "7").1 = Except.ok loadedDonation
    ∧ (loadedDonation.Status, loadedDonation.USDAmount, loadedDonation.CharityName)
        = (DonationPending, 0, { String := "Charity One", Valid := true })
    ∧ (∃ d' : Donation,
        (CheckStatus sampleEnv ledgerNotFound loadedDonation storedWorld).1 = none
        ∧ (CheckStatus sampleEnv ledgerNotFound loadedDonation storedWorld).2.1 = d'
        ∧ d'.Status = DonationRejected
        ∧ d'.LastChecked = { Time := 100 * hour + 1, Valid := true }
        ∧ (CheckStatus sampleEnv ledgerNotFound loadedDonation storedWorld).2.2.donations
            = [row d', row terminalDonation])
    ∧ (CheckStatus sampleEnv ledgerNotFound loadedDonation storedWorld).2.2.donations.map
          (fun r => (r.Id, r.Status, r.LastChecked))
        = [("7", DonationRejected, { Time := 100 * hour + 1, Valid := true }),
           ("9", DonationAccepted, { Time := 0, Valid := false })]
    ∧ (CheckStatus sampleEnv ledgerNotFound loadedDonation storedWorld).2.2.donations.map
          (fun r => (r.Charity, r.CharityName, r.CreatedAt))
        = [(none, { String := "", Valid := false }, 75 * hour),
           (none, { String := "", Valid := false }, 0)] := by
  obtain ⟨d', _, _, hl, _, _, _, hid, h25, _, hok, _⟩ :=
    CheckStatus_not_found sampleEnv ledgerNotFound loadedDonation storedWorld rfl rfl
  have h := (hok rfl).1
  refine ⟨by decide, by decide, ⟨d', by rw [h], by rw [h], h25 (by decide), hl, ?_⟩,
    by decide, by decide⟩
  rw [h]
  simp [storedWorld, storedRow7, loadedDonation, viewRow, row, storedDonation,
    acceptedDonation, terminalDonation, hid]

set_option maxRecDepth 10000 in
/-- C3, counterexample: an Accepted donation that the ledger reports as
Rejected leaves `CheckStatus` with status Rejected. -/
theorem CheckStatus_terminal_counterexample :
    acceptedDonation.Status = DonationAccepted
    ∧ (fun r : Outcome => (r.1, r.2.1.Status))
        (CheckStatus sampleEnv (ledgerFound "Rejected" "2.00") acceptedDonation sampleWorld)
      = (none, DonationRejected)
    ∧ DonationRejected ≠ acceptedDonation.Status := by
  decide

/-- C3, amended: for a donation whose status is Accepted or Rejected,
`CheckStatus` leaves the status as it was when the ledger query fails with an
error other than not found and when the reported amount does not parse; on a
found response whose amount parses the status becomes the reported status, so
it is unchanged exactly when the ledger reports the status the donation has.
Terminal donations are kept out of the reconciliation by the sweep:
`GetDonationsToCheck` returns view rows of stored donations that are Pending,
none with the status of a terminal donation. -/
theorem CheckStatus_terminal (env : Env) (jg : JustGiving) (d : Donation) (w : World)
    (hT : d.Status = DonationAccepted ∨ d.Status = DonationRejected) :
    (∀ e, GetJustGivingDonation d jg = Except.error e → e ≠ Err.ErrDonationNotFound →
        CheckStatus env jg d w = (some e, d, w))
    ∧ (∀ jgd e, GetJustGivingDonation d jg = Except.ok jgd →
        ParseFloat jgd.Amount = Except.error e →
        CheckStatus env jg d w = (some e, d, w))
    ∧ (∀ jgd f, GetJustGivingDonation d jg = Except.ok jgd →
        ParseFloat jgd.Amount = Except.ok f →
        (CheckStatus env jg d w).2.1.Status = jgd.Status
          ∧ ((CheckStatus env jg d w).2.1.Status = d.Status ↔ jgd.Status = d.Status))
    ∧ (∀ limit rows, (GetDonationsToCheck w limit).1 = Except.ok rows →
        ∀ r ∈ rows, (∃ s ∈ w.donations, r = viewRow w s)
          ∧ r.Status = DonationPending ∧ r.Status ≠ d.Status) := by
  refine ⟨?_, ?_, ?_, ?_⟩
  · intro e hq hne
    unfold CheckStatus
    rw [hq]
    simp [hne]
  · intro jgd e hq hpf
    exact CheckStatus_found_unparsed env jg d w jgd e hq hpf
  · intro jgd f hq hpf
    obtain ⟨hs, _⟩ := CheckStatus_found env jg d w jgd f hq hpf
    exact ⟨hs, by rw [hs]⟩
  · intro limit rows h r hr
    obtain ⟨hs, hm⟩ := GetDonationsToCheck_pending w limit rows h r hr
    refine ⟨hm, hs, ?_⟩
    rw [hs]
    rcases hT with h1 | h1 <;> rw [h1] <;> decide

set_option maxRecDepth 10000 in
/-- Witness of C3, amended, on the stored accepted donation number 9: a
ledger that times out and a ledger whose amount `abc` does not parse leave it
untouched, and so does the amount `1__0`; a ledger that reports `Accepted`
and `1e2` leaves it Accepted; a ledger that reports `Rejected` makes it
Rejected; and the sweep over the store, which holds it and the pending
donation number 7, returns number 7 only, as the view shows it: charity name
joined, `USDAmount` zero though 500 is stored. -/
theorem CheckStatus_terminal_witness :
    CheckStatus sampleEnv ledgerDown terminalDonation storedWorld
        = (some (Err.other "timeout"), terminalDonation, storedWorld)
    ∧ CheckStatus sampleEnv (ledgerFound "Accepted" "abc") terminalDonation storedWorld
        = (some (Err.NumError "ParseFloat" "abc" StrconvErr.ErrSyntax), terminalDonation,
            storedWorld)
    ∧ (CheckStatus sampleEnv (ledgerFound "Accepted" "1e2") terminalDonation storedWorld).2.1.Status
        = terminalDonation.Status
    ∧ (CheckStatus sampleEnv (ledgerFound "Rejected" "2.00") terminalDonation storedWorld).2.1.Status
        = DonationRejected
    ∧ CheckStatus sampleEnv (ledgerFound "Accepted" "1__0") terminalDonation storedWorld
        = (some (Err.NumError "ParseFloat" "1__0" StrconvErr.ErrSyntax), terminalDonation,
            storedWorld)
    ∧ (GetDonationsToCheck storedWorld 10).1 = Except.ok [viewRow storedWorld storedRow7]
    ∧ (storedRow7.USDAmount, (viewRow storedWorld storedRow7).USDAmount,
        (viewRow storedWorld storedRow7).CharityName, (viewRow storedWorld storedRow7).Id)
        = (500, 0, { String := "Charity One", Valid := true }, "7")
    ∧ (∀ r ∈ [viewRow storedWorld storedRow7],
        (∃ s ∈ storedWorld.donations, r = viewRow storedWorld s)
          ∧ r.Status = DonationPending ∧ r.Status ≠ terminalDonation.Status) := by
  refine ⟨?_, ?_, ?_, ?_, ?_, by decide, by decide, ?_⟩
  · exact (CheckStatus_terminal sampleEnv ledgerDown terminalDonation storedWorld
      (Or.inl rfl)).1 (Err.other "timeout") rfl (by decide)
  · exact (CheckStatus_terminal sampleEnv (ledgerFound "Accepted" "abc") terminalDonation
      storedWorld (Or.inl rfl)).2.1
        { Amount := "abc", CurrencyCode := "GBP", Status := "Accepted" }
        (Err.NumError "ParseFloat" "abc" StrconvErr.ErrSyntax) rfl (by decide)
  · exact ((CheckStatus_terminal sampleEnv (ledgerFound "Accepted" "1e2") terminalDonation
      storedWorld (Or.inl rfl)).2.2.1
        { Amount := "1e2", CurrencyCode := "GBP", Status := "Accepted" }
        (F64.finite false 7036874417766400 (-46)) rfl (by decide)).2.mpr rfl
  · exact ((CheckStatus_terminal sampleEnv (ledgerFound "Rejected" "2.00") terminalDonation
      storedWorld (Or.inl rfl)).2.2.1
        { Amount := "2.00", CurrencyCode := "GBP", Status := "Rejected" }
        (F64.finite false (2 ^ 52) (-51)) rfl (by decide)).1
  · exact (CheckStatus_terminal sampleEnv (ledgerFound "Accepted" "1__0") terminalDonation
      storedWorld (Or.inl rfl)).2.1
        { Amount := "1__0", CurrencyCode := "GBP", Status := "Accepted" }
        (Err.NumError "ParseFloat" "1__0" StrconvErr.ErrSyntax) rfl (by decide)
  · exact (CheckStatus_terminal sampleEnv ledgerDown terminalDonation storedWorld
      (Or.inl rfl)).2.2.2 10 _ rfl

set_option maxRecDepth 10000 in
/-- C10, counterexample: the ledger reports status `accepted`, which equals
`Accepted` up to letter case, with an amount that parses; the status after
`CheckStatus` is the string `accepted`, not `DonationAccepted`. -/
theorem CheckStatus_status_case_counterexample :
    "accepted".data.map Char.toLower = DonationAccepted.data.map Char.toLower
    ∧ (fun r : Outcome => (r.1, r.2.1.Status))
        (CheckStatus sampleEnv (ledgerFound "accepted" "2.00") (storedDonation 0) sampleWorld)
      = (none, "accepted")
    ∧ "accepted" ≠ DonationAccepted
    ∧ "accepted" ≠ DonationPending
    ∧ "accepted" ≠ DonationRejected := by
  decide

/-- C10, amended: on a found ledger response whose amount parses (whatever
`strconv.ParseFloat` accepts: decimal or hexadecimal, with or without an
exponent, an infinity, a NaN), the status after `CheckStatus` is the reported
status string as it came, letter case included; it is `DonationAccepted`,
`DonationPending` or `DonationRejected` when the reported string is exactly
`Accepted`, `Pending` or `Rejected`. -/
theorem CheckStatus_status_verbatim (env : Env) (jg : JustGiving) (d : Donation) (w : World)
    (jgd : JGDonation) (f : F64) (hq : GetJustGivingDonation d jg = Except.ok jgd)
    (hpf : ParseFloat jgd.Amount = Except.ok f) :
    (CheckStatus env jg d w).2.1.Status = jgd.Status
      ∧ (jgd.Status = "Accepted" → (CheckStatus env jg d w).2.1.Status = DonationAccepted)
      ∧ (jgd.Status = "Pending" → (CheckStatus env jg d w).2.1.Status = DonationPending)
      ∧ (jgd.Status = "Rejected" → (CheckStatus env jg d w).2.1.Status = DonationRejected) := by
  obtain ⟨hs, _⟩ := CheckStatus_found env jg d w jgd f hq hpf
  refine ⟨hs, ?_, ?_, ?_⟩ <;> intro h <;> rw [hs, h] <;> rfl

set_option maxRecDepth 10000 in
/-- Witness of C10, amended: the ledger reports `Accepted` with the amount
`2.00`, `Rejected` with the amount `Inf`, `Pending` with the amount
`-Infinity`, and `Accepted` with the amounts `0x1p-2` and `1_000.5e0`, all of
which `strconv.ParseFloat` accepts. -/
theorem CheckStatus_status_verbatim_witness :
    (CheckStatus sampleEnv (ledgerFound "Accepted" "2.00") (storedDonation 0) sampleWorld).2.1.Status
        = DonationAccepted
    ∧ (CheckStatus sampleEnv (ledgerFound "Rejected" "Inf") (storedDonation 0) sampleWorld).2.1.Status
        = DonationRejected
    ∧ (CheckStatus sampleEnv (ledgerFound "Pending" "-Infinity") (storedDonation 0)
        sampleWorld).2.1.Status = DonationPending
    ∧ (CheckStatus sampleEnv (ledgerFound "Accepted" "0x1p-2") (storedDonation 0)
        sampleWorld).2.1.Status = DonationAccepted
    ∧ (CheckStatus sampleEnv (ledgerFound "Accepted" "1_000.5e0") (storedDonation 0)
        sampleWorld).2.1.Status = DonationAccepted :=
  ⟨(CheckStatus_status_verbatim sampleEnv (ledgerFound "Accepted" "2.00") (storedDonation 0)
      sampleWorld { Amount := "2.00", CurrencyCode := "GBP", Status := "Accepted" }
      (F64.finite false (2 ^ 52) (-51)) rfl (by decide)).2.1 rfl,
   (CheckStatus_status_verbatim sampleEnv (ledgerFound "Rejected" "Inf") (storedDonation 0)
      sampleWorld { Amount := "Inf", CurrencyCode := "GBP", Status := "Rejected" }
      (F64.inf false) rfl (by decide)).2.2.2 rfl,
   (CheckStatus_status_verbatim sampleEnv (ledgerFound "Pending" "-Infinity")
      (storedDonation 0) sampleWorld
      { Amount := "-Infinity", CurrencyCode := "GBP", Status := "Pending" }
      (F64.inf true) rfl (by decide)).2.2.1 rfl,
   (CheckStatus_status_verbatim sampleEnv (ledgerFound "Accepted" "0x1p-2")
      (storedDonation 0) sampleWorld
      { Amount := "0x1p-2", CurrencyCode := "GBP", Status := "Accepted" }
      (F64.finite false (2 ^ 52) (-54)) rfl (by decide)).2.1 rfl,
   (CheckStatus_status_verbatim sampleEnv (ledgerFound "Accepted" "1_000.5e0")
      (storedDonation 0) sampleWorld
      { Amount := "1_000.5e0", CurrencyCode := "GBP", Status := "Accepted" }
      (F64.finite false 8800491068719104 (-43)) rfl (by decide)).2.1 rfl⟩

set_option maxRecDepth 10000 in
/-- C4, at the failing input: a Pending donation and a ledger response
`Accepted`, amount `19.99`, currency `GBP`. `CheckStatus` saves and returns
nil with Status Accepted, FinalCurrency GBP (valid), LastChecked stamped,
USDAmount left as it was (the conversion fails), and FinalAmount 1998, one
minor unit short of the 1999 that `19.99` denotes; the stored row of the
donation carries the same 1998. On the amount `2.00` of the test it gives
200. -/
theorem CheckStatus_found_amount_truncated :
    (fun r : Outcome => (r.1, r.2.1.Status, r.2.1.FinalAmount, r.2.1.FinalCurrency))
        (CheckStatus sampleEnv (ledgerFound "Accepted" "19.99") (storedDonation 0) sampleWorld)
      = (none, DonationAccepted, 1998, { String := "GBP", Valid := true })
    ∧ (fun r : Outcome => (r.2.1.LastChecked, r.2.1.USDAmount))
        (CheckStatus sampleEnv (ledgerFound "Accepted" "19.99") (storedDonation 0) sampleWorld)
      = ({ Time := 100 * hour, Valid := true }, 0)
    ∧ (fun r : Outcome => (r.1, r.2.1.Status, r.2.1.FinalAmount, r.2.1.FinalCurrency))
        (CheckStatus sampleEnv (ledgerFound "Accepted" "2.00") (storedDonation 0) sampleWorld)
      = (none, DonationAccepted, 200, { String := "GBP", Valid := true })
    ∧ (fun r : Outcome => r.2.2.donations.map (fun x => (x.Id, x.Status, x.FinalAmount)))
        (CheckStatus sampleEnv (ledgerFound "Accepted" "19.99") (storedDonation (75 * hour))
          storedWorld)
      = [("7", DonationAccepted, 1998), ("9", DonationAccepted, 0)] := by
  decide

set_option maxRecDepth 10000 in
/-- C9, at the failing input: `AmountFromString("19.99")` is `(1998, nil)`,
not 1999: the float64 nearest to 19.99, times 100, is just below 1999 and the
conversion to `int` truncates. The same happens at `0.29`, `1.15` and `4.35`;
on `12.34` the result is 1234. -/
theorem AmountFromString_truncates :
    AmountFromString "19.99" = Except.ok 1998
    ∧ AmountFromString "0.29" = Except.ok 28
    ∧ AmountFromString "1.15" = Except.ok 114
    ∧ AmountFromString "4.35" = Except.ok 434
    ∧ AmountFromString "12.34" = Except.ok 1234 := by
  decide

/-! ## Creation: theorems -/

/-- The charity lookup is one database access and nothing else. -/
theorem GetCharityById_world (w : World) (id : String) :
    (GetCharityById w id).2 = { w with ops := w.ops + 1 } := by
  unfold GetCharityById dbAccess
  cases w.fault w.ops with
  | some m => rfl
  | none =>
      simp only [Option.map]
      cases List.find? (fun c => c.Id == id) w.charities <;> rfl

/-- The donation lookup writes nothing: the tables are as before. -/
theorem GetDonationByField_world (w : World) (field : String) (val : SqlValue) :
    (GetDonationByField w field val).2.donations = w.donations
    ∧ (GetDonationByField w field val).2.charities = w.charities := by
  unfold GetDonationByField dbAccess
  cases w.fault w.ops with
  | some m => exact ⟨rfl, rfl⟩
  | none =>
      simp only [Option.map]
      split
      · exact ⟨rfl, rfl⟩
      · split
        · exact ⟨rfl, rfl⟩
        · rename_i r _
          split
          · exact ⟨rfl, rfl⟩
          · have hw := GetCharityById_world { w with ops := w.ops + 1 } r.CharityId
            split <;> rename_i heq <;> rw [heq] at hw <;> simp only [] at hw <;> rw [hw] <;>
              exact ⟨rfl, rfl⟩

/-- The reference-code loop writes nothing in the tables and changes no field
of the donation but `ReferenceCode`. -/
theorem GenerateReferenceCodeLoop_frame (fuel : Nat) :
    ∀ (hit : Bool) (d : Donation) (w : World) (r : Outcome),
      GenerateReferenceCodeLoop fuel hit d w = some r →
      r.2.2.donations = w.donations ∧ r.2.2.charities = w.charities
        ∧ r.2.1 = { d with ReferenceCode := r.2.1.ReferenceCode } := by
  induction fuel with
  | zero =>
      intro hit d w r h
      unfold GenerateReferenceCodeLoop at h
      split at h
      · exact absurd h (by simp)
      · cases h
        exact ⟨rfl, rfl, rfl⟩
  | succ n ih =>
      intro hit d w r h
      unfold GenerateReferenceCodeLoop at h
      split at h
      · have hw := GetDonationByField_world (timeNow w).2 "reference_code"
          (SqlValue.text ("ch-" ++ toString (timeNow w).1))
        simp only [GetDonationByReferenceCode] at h
        split at h
        · rename_i err w2 heq
          rw [heq] at hw
          split at h <;> cases h <;> exact ⟨hw.1, hw.2, rfl⟩
        · rename_i dupe w2 heq
          rw [heq] at hw
          obtain ⟨h1, h2, h3⟩ := ih true _ w2 r h
          refine ⟨h1.trans hw.1, h2.trans hw.2, ?_⟩
          rw [h3]
      · cases h
        exact ⟨rfl, rfl, rfl⟩

/-- The validation changes no field of the donation but `DonorCurrency`. -/
theorem Validate_frame (env : Env) (d : Donation) :
    (Validate env d).2 = { d with DonorCurrency := (Validate env d).2.DonorCurrency } := by
  unfold Validate
  cases env.ParseCurrency d.DonorCurrency with
  | error e => rfl
  | ok c =>
      simp only []
      split <;> rfl

/-- A successful insert appends the row of the donation it returns, which is
the donation it was given with the new id. -/
theorem Insert_success (d : Donation) (w : World) (d' : Donation) (w' : World)
    (h : Insert d w = (none, d', w')) :
    d' = { d with Id := d'.Id } ∧ w'.donations = w.donations ++ [row d']
      ∧ w'.charities = w.charities := by
  unfold Insert dbAccess at h
  cases hf : w.fault w.ops with
  | some m => simp [hf] at h
  | none =>
      simp only [hf, Option.map, Prod.mk.injEq, true_and] at h
      obtain ⟨h1, h2⟩ := h
      subst h1
      subst h2
      exact ⟨rfl, rfl, rfl⟩

/-- What a successful `Create` has gone through: the charity id is set, the
charity was found, no reference code was present, the validation passed, the
reference code was generated, and the insert succeeded. -/
theorem Create_success (fuel : Nat) (env : Env) (d : Donation) (w : World)
    (d' : Donation) (w' : World) (h : Create fuel env d w = some (none, d', w')) :
    d.CharityId ≠ "" ∧ d.ReferenceCode = "" ∧
    ∃ (c : Charity) (d3 : Donation) (w2 : World),
      (GetCharityById w d.CharityId).1 = Except.ok c
      ∧ (Validate env { d with Charity := some c }).1 = none
      ∧ GenerateReferenceCode fuel (Validate env { d with Charity := some c }).2
          { w with ops := w.ops + 1 } = some (none, d3, w2)
      ∧ Insert { (if d3.Status = "" then { d3 with Status := DonationPending } else d3) with
                 CreatedAt := (timeNow w2).1 } (timeNow w2).2 = (none, d', w') := by
  unfold Create at h
  split at h
  · exact absurd h (by simp)
  · rename_i hid
    have hw := GetCharityById_world w d.CharityId
    split at h
    · split at h <;> exact absurd h (by simp)
    · rename_i c w1 heq
      rw [heq] at hw
      simp only [] at hw
      subst hw
      simp only [] at h
      split at h
      · exact absurd h (by simp)
      · rename_i hrc
        split at h
        · exact absurd h (by simp)
        · rename_i d2 hv
          split at h
          · exact absurd h (by simp)
          · exact absurd h (by simp)
          · rename_i d3 w2 hg
            refine ⟨hid, not_not.mp hrc, c, d3, w2, by rw [heq], by rw [hv], ?_, ?_⟩
            · rw [hv]
              exact hg
            · exact Option.some.inj h

/-- The function `Create` writes in the donations table only after every creation check
has passed. -/
theorem Create_write (fuel : Nat) (env : Env) (d : Donation) (w : World) (r : Outcome)
    (h : Create fuel env d w = some r) (hw : r.2.2.donations ≠ w.donations) :
    d.CharityId ≠ "" ∧ d.ReferenceCode = "" ∧
      ∃ c : Charity, (GetCharityById w d.CharityId).1 = Except.ok c
        ∧ (Validate env { d with Charity := some c }).1 = none := by
  unfold Create at h
  split at h
  · cases h
    exact absurd rfl hw
  · rename_i hid
    have hwl := GetCharityById_world w d.CharityId
    split at h
    · rename_i err w1 heq
      rw [heq] at hwl
      simp only [] at hwl
      subst hwl
      split at h <;> cases h <;> exact absurd rfl hw
    · rename_i c w1 heq
      rw [heq] at hwl
      simp only [] at hwl
      subst hwl
      simp only [] at h
      split at h
      · cases h
        exact absurd rfl hw
      · rename_i hrc
        split at h
        · cases h
          exact absurd rfl hw
        · rename_i d2 hv
          refine ⟨hid, not_not.mp hrc, c, by rw [heq], by rw [hv]⟩

set_option maxRecDepth 10000 in
/-- C5, counterexample: a donation handed to `Create` with status Accepted is
created (nil error) with status Accepted, and the inserted row is Accepted. -/
theorem Create_status_counterexample :
    (Create 1 sampleEnv newAcceptedDonation sampleWorld).map
        (fun r => (r.1, r.2.1.Status, r.2.2.donations.map (fun x => x.Status)))
      = some (none, DonationAccepted, [DonationAccepted])
    ∧ DonationAccepted ≠ DonationPending := by
  decide

/-- C5, amended: after a successful `Create` the status of the donation is
Pending when the caller supplied the empty status, and the status the caller
supplied otherwise; the row appended to the donations table is the row of the
returned donation, so it carries that status too. -/
theorem Create_status (fuel : Nat) (env : Env) (d : Donation) (w : World)
    (d' : Donation) (w' : World) (h : Create fuel env d w = some (none, d', w')) :
    d'.Status = (if d.Status = "" then DonationPending else d.Status)
    ∧ w'.donations = w.donations ++ [row d']
    ∧ (row d').Status = d'.Status := by
  obtain ⟨_, _, c, d3, w2, _, _, hg, hi⟩ := Create_success fuel env d w d' w' h
  obtain ⟨_, _, h3⟩ := GenerateReferenceCodeLoop_frame fuel false _ _ _ hg
  obtain ⟨hd, hw, _⟩ := Insert_success _ _ _ _ hi
  have hv := Validate_frame env { d with Charity := some c }
  have hs3 : d3.Status = d.Status := by
    simp only [] at h3
    rw [h3, hv]
  have hwd := GenerateReferenceCodeLoop_frame fuel false _ _ _ hg
  refine ⟨?_, ?_, rfl⟩
  · rw [hd]
    by_cases he : d.Status = ""
    · simp [he, hs3]
    · simp [he, hs3]
  · rw [hw]
    simp only [timeNow]
    rw [hwd.1]

/-- Witness of C5, amended: a donation with the empty status is created Pending. -/
theorem Create_status_witness :
    ∃ (d' : Donation) (w' : World),
      Create 1 sampleEnv sampleDonation sampleWorld = some (none, d', w')
      ∧ d'.Status = DonationPending := by
  have h : ∃ (d' : Donation) (w' : World),
      Create 1 sampleEnv sampleDonation sampleWorld = some (none, d', w') := ⟨_, _, rfl⟩
  obtain ⟨d', w', h⟩ := h
  exact ⟨d', w', h, (Create_status 1 sampleEnv sampleDonation sampleWorld d' w' h).1⟩

/-- C6: `Create` returns the error of the first failing check, in this order,
and writes nothing. `ErrNoCharity` when `CharityId` is empty, with the world
untouched (no database access); `ErrCharityNotFound` when the charity lookup
finds no row; `ErrAlreadyInserted` when `ReferenceCode` is not empty; then the
error of `Validate`. In these cases the world differs from the initial one by
the one database access of the charity lookup. Whenever `Create` writes in the
donations table, and whenever it returns nil, every check has passed. In
particular, with an existing charity, an empty `ReferenceCode`, a supported
currency and `DonorAmount = -5`, `Create` returns `ErrNegativeAmount` and the
donations table is as it was. -/
theorem Create_checks (fuel : Nat) (env : Env) (d : Donation) (w : World) :
    (d.CharityId = "" → Create fuel env d w = some (some Err.ErrNoCharity, d, w))
    ∧ (d.CharityId ≠ "" → (GetCharityById w d.CharityId).1 = Except.error Err.sqlErrNoRows →
        Create fuel env d w
          = some (some Err.ErrCharityNotFound, d, { w with ops := w.ops + 1 }))
    ∧ (∀ c, d.CharityId ≠ "" → (GetCharityById w d.CharityId).1 = Except.ok c →
        d.ReferenceCode ≠ "" →
        Create fuel env d w
          = some (some Err.ErrAlreadyInserted, { d with Charity := some c },
              { w with ops := w.ops + 1 }))
    ∧ (∀ c e, d.CharityId ≠ "" → (GetCharityById w d.CharityId).1 = Except.ok c →
        d.ReferenceCode = "" → (Validate env { d with Charity := some c }).1 = some e →
        Create fuel env d w
          = some (some e, (Validate env { d with Charity := some c }).2,
              { w with ops := w.ops + 1 }))
    ∧ (∀ r : Outcome, Create fuel env d w = some r →
        (r.1 = none ∨ r.2.2.donations ≠ w.donations) →
        d.CharityId ≠ "" ∧ d.ReferenceCode = "" ∧
          ∃ c : Charity, (GetCharityById w d.CharityId).1 = Except.ok c
            ∧ (Validate env { d with Charity := some c }).1 = none)
    ∧ (∀ c cur, d.CharityId ≠ "" → (GetCharityById w d.CharityId).1 = Except.ok c →
        d.ReferenceCode = "" → env.ParseCurrency d.DonorCurrency = Except.ok cur →
        d.DonorAmount = -5 →
        ∃ (d' : Donation) (w' : World),
          Create fuel env d w = some (some Err.ErrNegativeAmount, d', w')
            ∧ w'.donations = w.donations) := by
  have hwl := GetCharityById_world w d.CharityId
  have key : ∀ c e, d.CharityId ≠ "" → (GetCharityById w d.CharityId).1 = Except.ok c →
      d.ReferenceCode = "" → (Validate env { d with Charity := some c }).1 = some e →
      Create fuel env d w
        = some (some e, (Validate env { d with Charity := some c }).2,
            { w with ops := w.ops + 1 }) := by
    intro c e hid hc hrc hv
    unfold Create
    split
    · rename_i h
      exact absurd h hid
    · split
      · rename_i err w1 heq
        rw [heq] at hc
        cases hc
      · rename_i c1 w1 heq
        rw [heq] at hc hwl
        simp only [] at hc hwl
        cases hc
        subst hwl
        simp only []
        split
        · rename_i h
          exact absurd hrc h
        · split
          · rename_i err d2 hv2
            rw [hv2] at hv ⊢
            simp only [] at hv
            cases hv
            rfl
          · rename_i d2 hv2
            rw [hv2] at hv
            cases hv
  refine ⟨?_, ?_, ?_, key, ?_, ?_⟩
  · intro hid
    unfold Create
    rw [if_pos hid]
  · intro hid hc
    unfold Create
    rw [if_neg hid]
    cases hx : GetCharityById w d.CharityId with
    | mk res w1 =>
        rw [hx] at hc hwl
        simp only [] at hc hwl
        subst hc
        subst hwl
        simp
  · intro c hid hc hrc
    unfold Create
    rw [if_neg hid]
    cases hx : GetCharityById w d.CharityId with
    | mk res w1 =>
        rw [hx] at hc hwl
        simp only [] at hc hwl
        subst hc
        subst hwl
        simp [hrc]
  · intro r hr hor
    rcases hor with h1 | h2
    · obtain ⟨e, d', w'⟩ := r
      simp only [] at h1
      subst h1
      obtain ⟨hid, hrc, c, _, _, hc, hv, _, _⟩ := Create_success fuel env d w d' w' hr
      exact ⟨hid, hrc, c, hc, hv⟩
    · exact Create_write fuel env d w r hr h2
  · intro c cur hid hc hrc hcur hneg
    have hv : (Validate env { d with Charity := some c }).1 = some Err.ErrNegativeAmount := by
      unfold Validate
      simp [hcur, hneg]
    exact ⟨_, _, key c _ hid hc hrc hv, rfl⟩

/-- Witness of C6: creation with `DonorAmount = -5` fails with
`ErrNegativeAmount` and leaves the donations table as it was. -/
theorem Create_checks_witness :
    ∃ (d' : Donation) (w' : World),
      Create 1 sampleEnv negativeDonation sampleWorld
          = some (some Err.ErrNegativeAmount, d', w')
        ∧ w'.donations = sampleWorld.donations :=
  (Create_checks 1 sampleEnv negativeDonation sampleWorld).2.2.2.2.2
    { Id := "c1", JustGivingCharityId := 2096 } "USD" (by decide) rfl rfl rfl rfl

/-- A view row matches a lookup by reference code exactly when it carries
the code. -/
theorem fieldIs_reference_code (code : String) (d : Donation) :
    fieldIs "reference_code" (SqlValue.text code) d = decide (d.ReferenceCode = code) := by
  have h1 : (SqlValue.text code != SqlValue.null) = true :=
    bne_iff_ne.mpr (fun h => SqlValue.noConfusion h)
  have h2 : columnValue "reference_code" d = some (SqlValue.text d.ReferenceCode) := by
    simp [columnValue]
  unfold fieldIs
  rw [h1, h2]
  by_cases h : d.ReferenceCode = code
  · simp [h]
  · have h3 : ¬ (some (SqlValue.text d.ReferenceCode) = some (SqlValue.text code)) := by
      intro he
      exact h (SqlValue.text.inj (Option.some.inj he))
    simp [h, h3]

/-- In a store with referential integrity, the lookup by reference code
answers `sql.ErrNoRows` only when no stored donation carries the code. -/
theorem GetDonationByReferenceCode_noRows (w : World) (code : String)
    (hc : w.consistent = true)
    (h : (GetDonationByReferenceCode w code).1 = Except.error Err.sqlErrNoRows) :
    ∀ r ∈ w.donations, r.ReferenceCode ≠ code := by
  unfold GetDonationByReferenceCode GetDonationByField dbAccess at h
  cases hf : w.fault w.ops with
  | some m => simp [hf] at h
  | none =>
      simp only [hf, Option.map] at h
      split at h
      · simp at h
      · cases hfind : List.find? (fieldIs "reference_code" (SqlValue.text code))
            (w.donations.map (viewRow { w with ops := w.ops + 1 })) with
        | none =>
            intro r hr heq
            have hmem : viewRow { w with ops := w.ops + 1 } r
                ∈ w.donations.map (viewRow { w with ops := w.ops + 1 }) :=
              List.mem_map_of_mem _ hr
            have := List.find?_eq_none.mp hfind _ hmem
            rw [fieldIs_reference_code] at this
            simp [viewRow, heq] at this
        | some r0 =>
            exfalso
            rw [hfind] at h
            simp only [] at h
            have hmem : r0 ∈ w.donations.map (viewRow { w with ops := w.ops + 1 }) :=
              List.mem_of_find?_eq_some hfind
            obtain ⟨s, hs, hsr⟩ := List.mem_map.mp hmem
            have hcid : r0.CharityId = s.CharityId := by
              rw [← hsr]
              rfl
            split at h
            · simp at h
            · rename_i hne
              unfold GetCharityById dbAccess at h
              simp only [] at h
              cases hf2 : w.fault (w.ops + 1) with
              | some m => simp [hf2] at h
              | none =>
                  simp only [hf2, Option.map] at h
                  cases hfc : List.find? (fun c => c.Id == r0.CharityId) w.charities with
                  | some c => simp [hfc] at h
                  | none =>
                      have hall := List.find?_eq_none.mp hfc
                      unfold World.consistent at hc
                      rw [List.all_eq_true] at hc
                      have := hc s hs
                      simp only [Bool.or_eq_true, beq_iff_eq, List.any_eq_true] at this
                      rcases this with h1 | ⟨c, hcm, hce⟩
                      · exact hne (hcid.trans h1)
                      · exact hall c hcm (by simpa [hcid] using hce)

/-- A reference code made by the generator is not the empty string. -/
theorem referenceCode_ne_empty (s : String) : "ch-" ++ s ≠ "" := by
  intro h
  have h1 := congrArg String.length h
  rw [String.length_append] at h1
  have h2 : "ch-".length = 3 := by decide
  have h3 : "".length = 0 := by decide
  omega

/-- In a store with referential integrity, when the reference-code loop
returns nil after having entered its body, the code it leaves is not empty and
no stored donation carries it. -/
theorem GenerateReferenceCodeLoop_unique (fuel : Nat) :
    ∀ (hit : Bool) (d : Donation) (w : World) (d' : Donation) (w' : World),
      (d.ReferenceCode = "" ∨ hit = true) → w.consistent = true →
      GenerateReferenceCodeLoop fuel hit d w = some (none, d', w') →
      d'.ReferenceCode ≠ "" ∧ ∀ r ∈ w.donations, r.ReferenceCode ≠ d'.ReferenceCode := by
  induction fuel with
  | zero =>
      intro hit d w d' w' hen _ h
      unfold GenerateReferenceCodeLoop at h
      rw [if_pos hen] at h
      exact absurd h (by simp)
  | succ n ih =>
      intro hit d w d' w' hen hc h
      unfold GenerateReferenceCodeLoop at h
      rw [if_pos hen] at h
      have hw := GetDonationByField_world (timeNow w).2 "reference_code"
        (SqlValue.text ("ch-" ++ toString (timeNow w).1))
      have hcons : (timeNow w).2.consistent = true := hc
      have hnr := GetDonationByReferenceCode_noRows (timeNow w).2
        ("ch-" ++ toString (timeNow w).1) hcons
      simp only [] at h
      split at h
      · rename_i err w2 heq
        rw [heq] at hnr
        split at h
        · rename_i herr
          simp only [Option.some.injEq, Prod.mk.injEq, true_and] at h
          obtain ⟨h1, _⟩ := h
          subst h1
          subst herr
          exact ⟨referenceCode_ne_empty _, hnr rfl⟩
        · simp at h
      · rename_i dupe w2 heq
        simp only [GetDonationByReferenceCode] at heq
        rw [heq] at hw
        have hc2 : w2.consistent = true := by
          unfold World.consistent at hc ⊢
          rw [hw.1, hw.2]
          exact hc
        obtain ⟨h1, h2⟩ := ih true _ w2 d' w' (Or.inr rfl) hc2 h
        refine ⟨h1, ?_⟩
        intro r hr
        apply h2 r
        rw [hw.1]
        exact hr

set_option maxRecDepth 10000 in
/-- C7, counterexample: the one stored donation carries the code `ch-5` and
names a charity that is not stored; the clock reads 5. The lookup by reference
code finds the row, fails on its charity with `sql.ErrNoRows`, and
`GenerateReferenceCode` takes that for a free code: it returns nil with
`ch-5`, which a stored donation carries, and `Create` inserts a second row
with the same code. -/
theorem GenerateReferenceCode_unique_counterexample :
    sampleDonation.ReferenceCode = ""
    ∧ orphanWorld.donations.map (fun r => r.ReferenceCode) = ["ch-5"]
    ∧ (GenerateReferenceCode 1 sampleDonation orphanWorld).map
        (fun r => (r.1, r.2.1.ReferenceCode)) = some (none, "ch-5")
    ∧ (Create 1 sampleEnv sampleDonation orphanWorld).map
        (fun r => (r.1, r.2.2.donations.map (fun x => x.ReferenceCode)))
      = some (none, ["ch-5", "ch-5"]) := by
  decide

/-- C7, amended: in a store with referential integrity (every stored donation
names a stored charity), for a donation whose `ReferenceCode` is empty on
entry: if `GenerateReferenceCode` returns nil, and hence if `Create` returns
nil, the donation's `ReferenceCode` is not empty and no donation already in
the store carries it. In any store and at any iteration of the loop, if the
existence lookup of the candidate fails with an error other than
`sql.ErrNoRows`, that error is returned. The generator does return: when the
first lookup goes through and no stored donation carries the first candidate,
it returns nil with that candidate after one iteration. -/
theorem GenerateReferenceCode_unique (fuel : Nat) (env : Env) (d : Donation) (w : World)
    (hrc : d.ReferenceCode = "") (hc : w.consistent = true) :
    (∀ d' w', GenerateReferenceCode fuel d w = some (none, d', w') →
        d'.ReferenceCode ≠ "" ∧ ∀ r ∈ w.donations, r.ReferenceCode ≠ d'.ReferenceCode)
    ∧ (∀ d' w', Create fuel env d w = some (none, d', w') →
        d'.ReferenceCode ≠ "" ∧ ∀ r ∈ w.donations, r.ReferenceCode ≠ d'.ReferenceCode)
    ∧ (∀ (hit : Bool) (dd : Donation) (ww : World) (e : Err),
        (dd.ReferenceCode = "" ∨ hit = true) →
        (GetDonationByReferenceCode (timeNow ww).2 ("ch-" ++ toString (timeNow ww).1)).1
          = Except.error e →
        e ≠ Err.sqlErrNoRows →
        ∃ d' w', GenerateReferenceCodeLoop (fuel + 1) hit dd ww = some (some e, d', w'))
    ∧ (w.fault w.ops = none →
        (∀ r ∈ w.donations, r.ReferenceCode ≠ "ch-" ++ toString (w.now w.ticks)) →
        GenerateReferenceCode (fuel + 1) d w
          = some (none, { d with ReferenceCode := "ch-" ++ toString (w.now w.ticks) },
              { w with ticks := w.ticks + 1, ops := w.ops + 1 })) := by
  refine ⟨?_, ?_, ?_, ?_⟩
  · intro d' w' h
    exact GenerateReferenceCodeLoop_unique fuel false d w d' w' (Or.inl hrc) hc h
  · intro d' w' h
    obtain ⟨_, _, c, d3, w2, _, _, hg, hi⟩ := Create_success fuel env d w d' w' h
    have hv := Validate_frame env { d with Charity := some c }
    have hv0 : (Validate env { d with Charity := some c }).2.ReferenceCode = "" := by
      rw [hv]
      exact hrc
    have hc1 : ({ w with ops := w.ops + 1 } : World).consistent = true := hc
    obtain ⟨h1, h2⟩ :=
      GenerateReferenceCodeLoop_unique fuel false _ _ d3 w2 (Or.inl hv0) hc1 hg
    obtain ⟨hd, _, _⟩ := Insert_success _ _ _ _ hi
    have h3 : d'.ReferenceCode = d3.ReferenceCode := by
      rw [hd]
      by_cases hs : d3.Status = "" <;> simp [hs]
    rw [h3]
    exact ⟨h1, h2⟩
  · intro hit dd ww e hen hl hne
    unfold GenerateReferenceCodeLoop
    rw [if_pos hen]
    simp only []
    split
    · rename_i err w2 heq
      rw [heq] at hl
      simp only [Except.error.injEq] at hl
      subst hl
      rw [if_neg hne]
      exact ⟨_, _, rfl⟩
    · rename_i dupe w2 heq
      rw [heq] at hl
      cases hl
  · intro hf hfree
    unfold GenerateReferenceCode GenerateReferenceCodeLoop
    rw [if_pos (Or.inl hrc)]
    have hfind : List.find?
        (fieldIs "reference_code" (SqlValue.text ("ch-" ++ toString (w.now w.ticks))))
        (w.donations.map (viewRow { w with ticks := w.ticks + 1, ops := w.ops + 1 }))
          = none := by
      rw [List.find?_eq_none]
      intro r hr
      obtain ⟨s, hs, hsr⟩ := List.mem_map.mp hr
      rw [fieldIs_reference_code, ← hsr]
      simpa [viewRow] using hfree s hs
    have hcol : DonationColumns.all (fun c => c.2 != "reference_code") = false := by decide
    simp [GetDonationByReferenceCode, GetDonationByField, dbAccess, timeNow, hf, hfind, hcol]

set_option maxRecDepth 10000 in
/-- Witness of C7, amended: the store holds two donations of the stored
charity `c1`, with codes `ch-5` and `ch-1`, and the clock reads 5, then 6. The
first candidate `ch-5` is taken, the generator goes round again and returns
nil with `ch-6`, which is not empty and which neither stored donation
carries; `Create` on the same store inserts the donation with a code that no
donation stored before carries. -/
theorem GenerateReferenceCode_unique_witness :
    busyWorld.consistent = true
    ∧ busyWorld.donations.map (fun r => r.ReferenceCode) = ["ch-5", "ch-1"]
    ∧ (∃ (d' : Donation) (w' : World),
        GenerateReferenceCode 2 sampleDonation busyWorld = some (none, d', w')
        ∧ d'.ReferenceCode = "ch-6"
        ∧ d'.ReferenceCode ≠ ""
        ∧ ∀ r ∈ busyWorld.donations, r.ReferenceCode ≠ d'.ReferenceCode)
    ∧ (∃ (d' : Donation) (w' : World),
        Create 2 sampleEnv sampleDonation busyWorld = some (none, d', w')
        ∧ d'.ReferenceCode ≠ ""
        ∧ ∀ r ∈ busyWorld.donations, r.ReferenceCode ≠ d'.ReferenceCode) := by
  have hg : ∃ (d' : Donation) (w' : World),
      GenerateReferenceCode 2 sampleDonation busyWorld = some (none, d', w')
        ∧ d'.ReferenceCode = "ch-6" := ⟨_, _, rfl, by decide⟩
  have hcr : ∃ (d' : Donation) (w' : World),
      Create 2 sampleEnv sampleDonation busyWorld = some (none, d', w') := ⟨_, _, rfl⟩
  obtain ⟨d1, w1, h1, h6⟩ := hg
  obtain ⟨d2, w2, h2⟩ := hcr
  have hthm := GenerateReferenceCode_unique 2 sampleEnv sampleDonation busyWorld rfl (by decide)
  exact ⟨by decide, by decide,
    ⟨d1, w1, h1, h6, (hthm.1 d1 w1 h1).1, (hthm.1 d1 w1 h1).2⟩,
    ⟨d2, w2, h2, (hthm.2.1 d2 w2 h2).1, (hthm.2.1 d2 w2 h2).2⟩⟩

end Altrudos
